import Mathlib

/-!
Shallow embedding of `query_chat_history_server.py`: the query builder,
the snippet extractor, the token validator and the request pipeline of the
chat-history search service, together with proofs of the specification
claims about them.

Text is modelled as `List Char` (Python `str` slicing and indexing are by
code point, which `List Char` mirrors exactly).
-/

/-- Coercion from a Lean string literal to the `List Char` text model. -/
def strL (s : String) : List Char := s.toList

/-- The single-quote character (code point 39), used inside SQL literals. -/
def sqChar : List Char := [Char.ofNat 39]

/-! ## Data model (pydantic schemas `ChatHistoryQuery` and `ChatEntry`) -/

/-- Embedding of the pydantic input model `ChatHistoryQuery`.
`search_term: str` is required; `author_role`, `conversation_title` are
`Optional[str] = None`; `limit: Optional[int] = 10`.  `context_radius`
is typed `Optional[int] = 2500` in the source and positive per the spec;
it is modelled as `Nat` with the same default. -/
structure ChatHistoryQuery where
  search_term : List Char
  author_role : Option (List Char) := none
  conversation_title : Option (List Char) := none
  limit : Option Int := some 10
  context_radius : Nat := 2500
deriving DecidableEq

/-- Embedding of the pydantic output model `ChatEntry` (timestamps are
modelled as integers, their only role here being the sort key). -/
structure ChatEntry where
  timestamp : Int
  author : List Char
  title : Option (List Char)
  content : List Char
  truncated : Bool
deriving DecidableEq

/-- A row of the `messages` table. -/
structure Message where
  timestamp : Int
  author_role : List Char
  content : List Char
  conversation_id : Nat
deriving DecidableEq

/-- A row of the `conversations` table (`title` is nullable). -/
structure Conversation where
  id : Nat
  title : Option (List Char)
deriving DecidableEq

/-- The storage collaborator state: the two joined tables. -/
structure Database where
  messages : List Message
  conversations : List Conversation
deriving DecidableEq

/-- Pydantic request validation, embedded from the source model: the
`ChatHistoryQuery` class declares plain types with no validators and no
constraints, so every well-typed request body is accepted (in particular
an empty `search_term` string). -/
def pydanticAccepts (_q : ChatHistoryQuery) : Bool := true

/-! ## QueryBuilder (lines 135-156 of the source) -/

/-- Python truthiness of an `Optional[str]`: `None` and the empty string
are falsy; the source guards each optional condition with
`if query.author_role:` / `if query.conversation_title:`. -/
def truthy : Option (List Char) → Bool
  | none => false
  | some s => !s.isEmpty

/-- The bound-parameter pattern `f"%{...}%"` built around a caller value. -/
def containsPattern (t : List Char) : List Char := strL "%" ++ t ++ strL "%"

/-- The fixed condition `m.author_role != 'tool'` (single quotes around
`tool` spelled via `sqChar`). -/
def toolExclusion : List Char := strL "m.author_role != " ++ sqChar ++ strL "tool" ++ sqChar

/-- The `conditions` list of the source: two fixed conditions, plus one
placeholder condition per truthy optional facet.  Caller values never
appear here, only `%s` placeholders. -/
def buildConditions (q : ChatHistoryQuery) : List (List Char) :=
  [strL "m.content ILIKE %s", toolExclusion]
    ++ (if truthy q.author_role then [strL "m.author_role = %s"] else [])
    ++ (if truthy q.conversation_title then [strL "c.title ILIKE %s"] else [])

/-- A value bound by the driver for one `%s` placeholder. -/
inductive SqlParam
  | text (s : List Char)
  | intVal (n : Option Int)
deriving DecidableEq

/-- The `params` list of the source, in placeholder order: the ILIKE
pattern around `search_term`, the optional `author_role` value, the
optional ILIKE pattern around `conversation_title`, and `limit`. -/
def buildParams (q : ChatHistoryQuery) : List SqlParam :=
  [SqlParam.text (containsPattern q.search_term)]
    ++ (if truthy q.author_role then [SqlParam.text (q.author_role.getD [])] else [])
    ++ (if truthy q.conversation_title then
          [SqlParam.text (containsPattern (q.conversation_title.getD []))] else [])
    ++ [SqlParam.intVal q.limit]

/-- The fixed SQL text before the joined conditions. -/
def sqlHeader : List Char := strL "
        SELECT m.timestamp, m.author_role, c.title, m.content
        FROM messages m
        JOIN conversations c ON m.conversation_id = c.id
        WHERE "

/-- The fixed SQL text after the joined conditions. -/
def sqlFooter : List Char := strL "
        ORDER BY m.timestamp DESC
        LIMIT %s
    "

/-- The query text sent to the driver: the f-string of the source with
`{' AND '.join(conditions)}` spliced into the fixed template. -/
def buildSQL (q : ChatHistoryQuery) : List Char :=
  sqlHeader ++ List.intercalate (strL " AND ") (buildConditions q) ++ sqlFooter

/-! ## Storage semantics of the built query

The generated SQL is fixed in shape, so its Postgres semantics can be
given directly: an inner join of `messages` with `conversations`, a row
filter interpreting the conditions of `buildConditions` with their bound
parameters, `ORDER BY m.timestamp DESC`, and `LIMIT`. -/

/-- SQL `ILIKE` pattern matching over code points: `%` matches any run of
characters, `_` matches one character, anything else matches itself
case-insensitively. -/
def likeMatch : List Char → List Char → Bool
  | [], [] => true
  | [], _ :: _ => false
  | '%' :: p, [] => likeMatch p []
  | '%' :: p, d :: t => likeMatch p (d :: t) || likeMatch ('%' :: p) t
  | '_' :: _, [] => false
  | '_' :: p, _ :: t => likeMatch p t
  | _ :: _, [] => false
  | c :: p, d :: t => (c.toLower == d.toLower) && likeMatch p t
termination_by p s => (s.length, p.length)

/-- Evaluation of the generated `WHERE` clause at one joined row: the two
fixed conditions always, the `m.author_role = %s` condition when the
`author_role` facet is truthy, the `c.title ILIKE %s` condition when the
`conversation_title` facet is truthy (`NULL ILIKE p` is not true). -/
def rowMatches (q : ChatHistoryQuery) (m : Message) (c : Conversation) : Bool :=
  likeMatch (containsPattern q.search_term) m.content
    && !(m.author_role == strL "tool")
    && (if truthy q.author_role then m.author_role == q.author_role.getD [] else true)
    && (if truthy q.conversation_title then
          (match c.title with
           | some title => likeMatch (containsPattern (q.conversation_title.getD [])) title
           | none => false)
        else true)

/-- The inner join `messages m JOIN conversations c ON m.conversation_id = c.id`. -/
def joinedRows (db : Database) : List (Message × Conversation) :=
  db.messages.flatMap fun m =>
    (db.conversations.filter fun c => c.id == m.conversation_id).map fun c => (m, c)

/-- `ORDER BY m.timestamp DESC` (ties left in storage order). -/
def sortRows (rows : List (Message × Conversation)) : List (Message × Conversation) :=
  rows.mergeSort fun a b => b.1.timestamp ≤ a.1.timestamp

/-- `LIMIT %s` with the bound `limit` value: `LIMIT NULL` means no limit
in Postgres; a non-negative bound keeps that many rows. -/
def applyLimit (limit : Option Int) (rows : List (Message × Conversation)) :
    List (Message × Conversation) :=
  match limit with
  | none => rows
  | some n => rows.take n.toNat

/-- The row set the storage collaborator returns for the built query. -/
def executeQuery (q : ChatHistoryQuery) (db : Database) : List (Message × Conversation) :=
  applyLimit q.limit (sortRows ((joinedRows db).filter fun mc => rowMatches q mc.1 mc.2))

/-! ## SnippetExtractor (lines 170-206 of the source) -/

/-- The ellipsis marker `"..."` added around truncated snippets. -/
def ellipsis : List Char := strL "..."

/-- The `(content, truncated)` pair produced for one row. -/
structure Snippet where
  content : List Char
  truncated : Bool
deriving DecidableEq

/-- Whether the case-insensitive literal `term` occurs in `body` starting
at position `i`; this is what a match of `re.search(re.escape(term),
content, re.IGNORECASE)` anchored at `i` means. -/
def matchesAt (term body : List Char) (i : Nat) : Bool :=
  (term.map Char.toLower).isPrefixOf ((body.map Char.toLower).drop i)

/-- Position of the leftmost case-insensitive literal occurrence of
`term` in `body`, as found by `re.search(re.escape(term), content,
re.IGNORECASE)`: the smallest starting index that carries a match, or
`none` when there is no match. -/
def findCI (term body : List Char) : Option Nat :=
  (List.range (body.length + 1)).find? (matchesAt term body)

/-- Embedding of the per-row snippet logic (source lines 171-206): a body
no longer than `context_radius` is returned unchanged with
`truncated = False`; otherwise the first case-insensitive occurrence of
the search term is located and a half-radius window is cut around the
match span (truncated `Nat` subtraction realises the source's
`max(0, ...)` clamp), with ellipsis markers on the sides that were cut;
when no occurrence exists the first `context_radius` characters are kept
with a trailing ellipsis. -/
def extractSnippet (term : List Char) (radius : Nat) (body : List Char) : Snippet :=
  if body.length ≤ radius then
    { content := body, truncated := false }
  else
    match findCI term body with
    | some s =>
        let e := s + term.length
        let start := s - radius / 2
        let stop := min body.length (e + radius / 2)
        let snip0 := (body.drop start).take (stop - start)
        let snip1 := if 0 < start then ellipsis ++ snip0 else snip0
        let snip2 := if stop < body.length then snip1 ++ ellipsis else snip1
        { content := snip2, truncated := true }
    | none =>
        let snip0 := body.take radius
        let snip1 := if radius < body.length then snip0 ++ ellipsis else snip0
        { content := snip1, truncated := true }

/-- One `ChatEntry` built from a joined row (source lines 169-206):
`row[0]` is the timestamp, `row[1]` the author role, `row[2]` the
conversation title, `row[3]` the content run through the snippet step. -/
def makeEntry (q : ChatHistoryQuery) (mc : Message × Conversation) : ChatEntry :=
  let sn := extractSnippet q.search_term q.context_radius mc.1.content
  { timestamp := mc.1.timestamp
    author := mc.1.author_role
    title := mc.2.title
    content := sn.content
    truncated := sn.truncated }

/-- The full successful request pipeline of `query_chat_history`:
execute the built query against the database and post-process every
returned row into a `ChatEntry`. -/
def query_chat_history (q : ChatHistoryQuery) (db : Database) : List ChatEntry :=
  (executeQuery q db).map (makeEntry q)

/-! ## Error surface of the storage executor (lines 158-166) -/

/-- An HTTP error response raised via `HTTPException`. -/
structure HttpError where
  status : Nat
  detail : List Char
deriving DecidableEq

/-- Embedding of the `except` branch of the source executor: on a storage
failure carrying message `e`, the source raises
`HTTPException(status_code=500, detail=str(e))`, so the client-facing
detail is the raw exception text itself. -/
def storageErrorResponse (e : List Char) : HttpError :=
  { status := 500, detail := e }

/-! ## TokenValidator (lines 98-124 of the source) -/

/-- The JSON body the identity provider returns for an accepted token:
`login` is `user.get("login")`, absent when the field is missing. -/
structure GithubUser where
  login : Option (List Char)
deriving DecidableEq

/-- Outcome of `validate_token`: fall through (authorized) or a raised
`HTTPException`. -/
inductive AuthResult
  | authorized
  | httpError (err : HttpError)
deriving DecidableEq

/-- Result of running the validator together with whether the identity
provider was consulted (the source performs its single outbound
`requests.get` only inside the `gho_` branch). -/
structure AuthEval where
  result : AuthResult
  providerCalled : Bool
deriving DecidableEq

/-- The delegated-token shape test of the source: `token.startswith("gho_")`. -/
def isDelegatedShape (token : List Char) : Bool :=
  (strL "gho_").isPrefixOf token

/-- The identity allow-list: a single hardcoded login in the source. -/
def allowList : List (List Char) := [strL "VBWizard"]

/-- Embedding of `validate_token`.  The identity provider is the
collaborator `provider`: `none` models a non-200 reply to
`GET /user`, `some u` a 200 reply with JSON body `u`.  A token equal to
the static secret is accepted at once; a `gho_`-shaped token is sent to
the provider and the resolved login must equal the single allow-listed
login; anything else is a 401 for unrecognized format. -/
def validate_token (authToken : List Char) (provider : List Char → Option GithubUser)
    (token : List Char) : AuthEval :=
  if token = authToken then
    { result := .authorized, providerCalled := false }
  else if isDelegatedShape token then
    match provider token with
    | none =>
        { result := .httpError { status := 401, detail := strL "Invalid GitHub token" }
          providerCalled := true }
    | some user =>
        if user.login ≠ some (strL "VBWizard") then
          { result := .httpError { status := 403, detail := strL "Unauthorized GitHub user" }
            providerCalled := true }
        else
          { result := .authorized, providerCalled := true }
  else
    { result := .httpError { status := 401, detail := strL "Unauthorized token format" }
      providerCalled := false }

/-! ## Claim C1 (query text independence and bound parameters) -/

set_option maxRecDepth 8192 in
/-- C1 counterexample: two requests in which exactly the same optional
fields are present (both supply `author_role`, neither supplies
`conversation_title`) but whose generated SQL texts differ, because the
source guards the extra condition with Python truthiness
(`if query.author_role:`), so a present-but-empty `author_role` produces
the short query while a present non-empty one produces the long query.
Hence the query text depends on a caller-supplied value, not only on
field presence. -/
theorem C1_counterexample :
    (⟨strL "a", some [], none, some 10, 2500⟩ : ChatHistoryQuery).author_role.isSome =
        (⟨strL "a", some (strL "x"), none, some 10, 2500⟩ : ChatHistoryQuery).author_role.isSome
    ∧ (⟨strL "a", some [], none, some 10, 2500⟩ : ChatHistoryQuery).conversation_title.isSome =
        (⟨strL "a", some (strL "x"), none, some 10, 2500⟩ :
          ChatHistoryQuery).conversation_title.isSome
    ∧ buildSQL ⟨strL "a", some [], none, some 10, 2500⟩ ≠
        buildSQL ⟨strL "a", some (strL "x"), none, some 10, 2500⟩ := by
  refine ⟨rfl, rfl, ?_⟩
  decide

/-- C1 amended: the SQL text sent to the driver depends only on which
optional fields are present with a truthy (non-empty) value — two
requests whose truthiness flags agree yield identical query text, whatever
their `search_term`, `limit` and field values — and every caller value
that the builder uses reaches the driver as a bound parameter: the
`search_term` pattern always, the `author_role` value and the
`conversation_title` pattern when truthy, and `limit` always. -/
theorem C1_amended (q1 q2 : ChatHistoryQuery)
    (har : truthy q1.author_role = truthy q2.author_role)
    (hct : truthy q1.conversation_title = truthy q2.conversation_title) :
    buildSQL q1 = buildSQL q2
    ∧ SqlParam.text (containsPattern q1.search_term) ∈ buildParams q1
    ∧ (∀ ar, q1.author_role = some ar → truthy q1.author_role = true →
        SqlParam.text ar ∈ buildParams q1)
    ∧ (∀ t, q1.conversation_title = some t → truthy q1.conversation_title = true →
        SqlParam.text (containsPattern t) ∈ buildParams q1)
    ∧ SqlParam.intVal q1.limit ∈ buildParams q1 := by
  refine ⟨?_, ?_, ?_, ?_, ?_⟩
  · rw [buildSQL, buildSQL, buildConditions, buildConditions, har, hct]
  · simp [buildParams]
  · intro ar hq ht
    rw [hq] at ht
    simp [buildParams, hq, ht]
  · intro t hq ht
    rw [hq] at ht
    simp [buildParams, hq, ht]
  · simp [buildParams]

/-- C1 witness: the amended theorem applied to two concrete requests with
agreeing truthiness flags but different search terms, author roles and
limits. -/
theorem C1_witness :
    truthy (⟨strL "abc", some (strL "user"), none, some 5, 2500⟩ :
        ChatHistoryQuery).author_role =
      truthy (⟨strL "zzz", some (strL "assistant"), none, some 7, 99⟩ :
        ChatHistoryQuery).author_role
    ∧ truthy (⟨strL "abc", some (strL "user"), none, some 5, 2500⟩ :
        ChatHistoryQuery).conversation_title =
      truthy (⟨strL "zzz", some (strL "assistant"), none, some 7, 99⟩ :
        ChatHistoryQuery).conversation_title
    ∧ buildSQL ⟨strL "abc", some (strL "user"), none, some 5, 2500⟩ =
        buildSQL ⟨strL "zzz", some (strL "assistant"), none, some 7, 99⟩
    ∧ SqlParam.text (containsPattern (strL "abc")) ∈
        buildParams ⟨strL "abc", some (strL "user"), none, some 5, 2500⟩
    ∧ SqlParam.text (strL "user") ∈
        buildParams ⟨strL "abc", some (strL "user"), none, some 5, 2500⟩
    ∧ SqlParam.intVal (some 5) ∈
        buildParams ⟨strL "abc", some (strL "user"), none, some 5, 2500⟩ := by
  have h := C1_amended ⟨strL "abc", some (strL "user"), none, some 5, 2500⟩
    ⟨strL "zzz", some (strL "assistant"), none, some 7, 99⟩ (by decide) (by decide)
  exact ⟨by decide, by decide, h.1, h.2.1, h.2.2.1 (strL "user") rfl (by decide),
    h.2.2.2.2⟩

/-! ## Claim C4 (storage failure detail echoes the raw exception) -/

/-- C4: evaluation of the executor's `except` branch at a concrete
storage failure.  The source raises
`HTTPException(status_code=500, detail=str(e))`, so the client-facing
`detail` field is exactly the raw driver exception text — the hardened
behavior the claim describes (a generic, non-revealing message) is not
what the code does. -/
theorem C4_code_eval :
    (storageErrorResponse (strL "connection to server at db:5432 failed")).detail =
        strL "connection to server at db:5432 failed"
    ∧ (storageErrorResponse (strL "connection to server at db:5432 failed")).status = 500 :=
  ⟨rfl, rfl⟩

/-! ## Claim C6 (short bodies pass through unchanged) -/

/-- C6: a body whose length is at most `context_radius` is returned
completely unchanged with `truncated = false`, for every search term and
hence regardless of whether or where the term occurs. -/
theorem C6_short_body_unchanged (term body : List Char) (radius : Nat)
    (h : body.length ≤ radius) :
    extractSnippet term radius body = { content := body, truncated := false } := by
  simp [extractSnippet, h]

/-- C6 witness: a five-character body under a radius of eight, with the
search term occurring inside it. -/
theorem C6_witness :
    (strL "machi").length ≤ 8
    ∧ extractSnippet (strL "ach") 8 (strL "machi") =
        { content := strL "machi", truncated := false } :=
  ⟨by decide, C6_short_body_unchanged (strL "ach") (strL "machi") 8 (by decide)⟩

/-! ## Claim C8 (static secret accepted without provider involvement) -/

/-- C8: a credential byte-equal to the configured static secret is
authorized immediately with no identity-provider call, for every provider
behavior, so the outcome is independent of provider reachability. -/
theorem C8_static_secret (secret token : List Char)
    (provider : List Char → Option GithubUser) (h : token = secret) :
    validate_token secret provider token =
      { result := .authorized, providerCalled := false } := by
  simp [validate_token, h]

/-- C8 witness: the static secret presented to a validator whose provider
rejects everything (unreachable provider) is still authorized without a
provider call. -/
theorem C8_witness :
    strL "shh" = strL "shh"
    ∧ validate_token (strL "shh") (fun _ => none) (strL "shh") =
        { result := .authorized, providerCalled := false } :=
  ⟨rfl, C8_static_secret (strL "shh") (strL "shh") (fun _ => none) rfl⟩

/-! ## Claim C9 (delegated-token paths stay distinguishable) -/

/-- C9: for a delegated-shape credential that is not the static secret,
a provider rejection yields 401 with the invalid-token detail; a provider
acceptance whose resolved login is not on the allow-list (including a
missing login field) yields 403; a provider acceptance whose login is on
the allow-list authorizes; and the three rejection responses (provider
rejected, identity not allowed, unrecognized shape) are pairwise distinct
values. -/
theorem C9_delegated_paths (secret token : List Char)
    (provider : List Char → Option GithubUser)
    (hne : token ≠ secret) (hshape : isDelegatedShape token = true) :
    (provider token = none →
        validate_token secret provider token =
          { result := .httpError { status := 401, detail := strL "Invalid GitHub token" }
            providerCalled := true })
    ∧ (∀ u, provider token = some u → (∀ l, u.login = some l → l ∉ allowList) →
        validate_token secret provider token =
          { result := .httpError { status := 403, detail := strL "Unauthorized GitHub user" }
            providerCalled := true })
    ∧ (∀ u l, provider token = some u → u.login = some l → l ∈ allowList →
        validate_token secret provider token =
          { result := .authorized, providerCalled := true })
    ∧ ({ status := 401, detail := strL "Invalid GitHub token" } : HttpError) ≠
        { status := 403, detail := strL "Unauthorized GitHub user" }
    ∧ ({ status := 403, detail := strL "Unauthorized GitHub user" } : HttpError) ≠
        { status := 401, detail := strL "Unauthorized token format" }
    ∧ ({ status := 401, detail := strL "Invalid GitHub token" } : HttpError) ≠
        { status := 401, detail := strL "Unauthorized token format" } := by
  refine ⟨?_, ?_, ?_, by decide, by decide, by decide⟩
  · intro hp
    simp [validate_token, hne, hshape, hp]
  · intro u hp hnotallowed
    have hlogin : u.login ≠ some (strL "VBWizard") := by
      intro heq
      exact hnotallowed (strL "VBWizard") heq (by simp [allowList])
    simp [validate_token, hne, hshape, hp, hlogin]
  · intro u l hp hlogin hmem
    have hl : l = strL "VBWizard" := by simpa [allowList] using hmem
    subst hl
    simp [validate_token, hne, hshape, hp, hlogin]

/-- C9 witness: the three provider behaviors exercised on the concrete
token `gho_t` against the secret `shh`: an unreachable or rejecting
provider gives 401, a provider resolving the login `Mallory` gives 403,
and a provider resolving the allow-listed login `VBWizard` authorizes. -/
theorem C9_witness :
    validate_token (strL "shh") (fun _ => none) (strL "gho_t") =
      { result := .httpError { status := 401, detail := strL "Invalid GitHub token" }
        providerCalled := true }
    ∧ validate_token (strL "shh") (fun _ => some { login := some (strL "Mallory") })
        (strL "gho_t") =
      { result := .httpError { status := 403, detail := strL "Unauthorized GitHub user" }
        providerCalled := true }
    ∧ validate_token (strL "shh") (fun _ => some { login := some (strL "VBWizard") })
        (strL "gho_t") =
      { result := .authorized, providerCalled := true } := by
  refine ⟨?_, ?_, ?_⟩
  · exact (C9_delegated_paths (strL "shh") (strL "gho_t") (fun _ => none)
      (by decide) (by decide)).1 rfl
  · exact (C9_delegated_paths (strL "shh") (strL "gho_t")
      (fun _ => some { login := some (strL "Mallory") }) (by decide) (by decide)).2.1
      { login := some (strL "Mallory") } rfl
      (by intro l hl hmem; rw [show l = strL "Mallory" from (Option.some.inj hl).symm] at hmem
          revert hmem; decide)
  · exact (C9_delegated_paths (strL "shh") (strL "gho_t")
      (fun _ => some { login := some (strL "VBWizard") }) (by decide) (by decide)).2.2.1
      { login := some (strL "VBWizard") } (strL "VBWizard") rfl rfl (by decide)

/-! ## Locating the first case-insensitive occurrence -/

/-- Scanning `0, 1, ...` with `find?` returns exactly the smallest index
satisfying the predicate. -/
lemma find_range_first {p : Nat → Bool} {s n : Nat} (hsn : s < n) (hp : p s = true)
    (hmin : ∀ j, j < s → p j = false) : (List.range n).find? p = some s := by
  induction n with
  | zero => omega
  | succ m ih =>
    rw [List.range_succ, List.find?_append]
    rcases Nat.lt_or_ge s m with h | h
    · rw [ih h]
      rfl
    · have hs : s = m := by omega
      subst hs
      have hnone : (List.range s).find? p = none := by
        rw [List.find?_eq_none]
        intro x hx
        simp only [List.mem_range] at hx
        simp [hmin x hx]
      rw [hnone]
      simp [List.find?, hp]

/-- The empty term matches at position zero. -/
lemma matchesAt_nil (body : List Char) : matchesAt [] body 0 = true := by
  rw [matchesAt]
  simp [List.isPrefixOf_iff_prefix]

/-- A match starting at `i ≤ length` fits inside the body. -/
lemma matchesAt_span {term body : List Char} {i : Nat} (h : matchesAt term body i = true)
    (hi : i ≤ body.length) : i + term.length ≤ body.length := by
  have hpre := (List.isPrefixOf_iff_prefix).mp h
  have hle := hpre.length_le
  simp only [List.length_drop, List.length_map] at hle
  omega

/-- The position of a leftmost match never exceeds the body length. -/
lemma first_match_le_length {term body : List Char} {s : Nat}
    (hp : matchesAt term body s = true)
    (hmin : ∀ j, j < s → matchesAt term body j = false) : s ≤ body.length := by
  by_contra hgt
  push_neg at hgt
  have hdrop : (body.map Char.toLower).drop s = [] := by
    apply List.drop_eq_nil_of_le
    simp only [List.length_map]
    omega
  rw [matchesAt, hdrop] at hp
  have hterm : term.map Char.toLower = [] := by
    have hpre := (List.isPrefixOf_iff_prefix).mp hp
    simpa using hpre
  have hzero : matchesAt term body 0 = true := by
    rw [matchesAt, hterm]
    simp [List.isPrefixOf_iff_prefix]
  have hfalse := hmin 0 (by omega)
  rw [hzero] at hfalse
  exact Bool.noConfusion hfalse

/-- `findCI` computes the leftmost case-insensitive occurrence. -/
lemma findCI_first {term body : List Char} {s : Nat}
    (hp : matchesAt term body s = true)
    (hmin : ∀ j, j < s → matchesAt term body j = false) :
    findCI term body = some s := by
  have hs := first_match_le_length hp hmin
  exact find_range_first (by omega) hp hmin

/-- `findCI` reports no occurrence when no position matches. -/
lemma findCI_none {term body : List Char}
    (h : ∀ i, i ≤ body.length → matchesAt term body i = false) :
    findCI term body = none := by
  rw [findCI, List.find?_eq_none]
  intro x hx
  simp only [List.mem_range] at hx
  simp [h x (by omega)]

/-- The empty term is always found, at position zero. -/
lemma findCI_nil (body : List Char) : findCI [] body = some 0 :=
  findCI_first (matchesAt_nil body) (fun j hj => by omega)

/-- Shape of the snippet in the found-match branch: the clamped window
around the match span, with an ellipsis on each side that was cut. -/
lemma extractSnippet_found {term body : List Char} {radius s : Nat}
    (hlen : radius < body.length) (hfind : findCI term body = some s) :
    extractSnippet term radius body =
      { content :=
          (if 0 < s - radius / 2 then ellipsis else [])
            ++ ((body.drop (s - radius / 2)).take
                  (min body.length (s + term.length + radius / 2) - (s - radius / 2)))
            ++ (if min body.length (s + term.length + radius / 2) < body.length then ellipsis
                else [])
        truncated := true } := by
  unfold extractSnippet
  rw [if_neg (by omega), hfind]
  by_cases h1 : 0 < s - radius / 2 <;>
    by_cases h2 : min body.length (s + term.length + radius / 2) < body.length <;>
      simp [h1, h2]

/-! ## Claim C2 (window around the first match) -/

/-- C2: when the body is longer than `context_radius` and the first
case-insensitive occurrence of the literal search term starts at `s`
(spanning `[s, s + term.length)`), the returned content is the slice of
the body from `s - radius/2` (truncated subtraction, i.e.
`max(0, s - radius/2)`) to `min(length, s + term.length + radius/2)`,
with a leading ellipsis marker exactly when the window start is positive
and a trailing one exactly when the window end is short of the body
length, and `truncated = true`. -/
theorem C2_snippet_window (term body : List Char) (radius s : Nat)
    (hlen : radius < body.length)
    (hmatch : matchesAt term body s = true)
    (hfirst : ∀ j, j < s → matchesAt term body j = false) :
    extractSnippet term radius body =
      { content :=
          (if 0 < s - radius / 2 then ellipsis else [])
            ++ ((body.drop (s - radius / 2)).take
                  (min body.length (s + term.length + radius / 2) - (s - radius / 2)))
            ++ (if min body.length (s + term.length + radius / 2) < body.length then ellipsis
                else [])
        truncated := true } :=
  extractSnippet_found hlen (findCI_first hmatch hfirst)

/-- C2 witness: term `def` in body `abcdefghij` with radius 4; the first
match starts at 3, the window is `[1, 8)`, and both sides get an
ellipsis. -/
theorem C2_witness :
    4 < (strL "abcdefghij").length
    ∧ matchesAt (strL "def") (strL "abcdefghij") 3 = true
    ∧ (∀ j, j < 3 → matchesAt (strL "def") (strL "abcdefghij") j = false)
    ∧ extractSnippet (strL "def") 4 (strL "abcdefghij") =
        { content := ellipsis ++ strL "bcdefgh" ++ ellipsis, truncated := true } :=
  ⟨by decide, by decide, by decide,
    (C2_snippet_window (strL "def") (strL "abcdefghij") 4 3 (by decide) (by decide)
      (by decide)).trans (by decide)⟩

/-! ## Claim C7 (fallback when the literal term is not found) -/

/-- C7: when the body is longer than `context_radius` and no position of
the body carries a case-insensitive occurrence of the literal search
term, the returned content is the first `context_radius` characters
followed by an ellipsis marker, and `truncated = true`; the branch
returns a normal entry, not an error. -/
theorem C7_no_match_fallback (term body : List Char) (radius : Nat)
    (hlen : radius < body.length)
    (hnone : ∀ i, i ≤ body.length → matchesAt term body i = false) :
    extractSnippet term radius body =
      { content := body.take radius ++ ellipsis, truncated := true } := by
  unfold extractSnippet
  rw [if_neg (by omega), findCI_none hnone]
  simp [hlen]

/-- C7 witness: the term `z` does not occur in `aaaaaa`, whose six
characters exceed the radius 3, so the snippet is `aaa` plus an
ellipsis. -/
theorem C7_witness :
    3 < (strL "aaaaaa").length
    ∧ (∀ i, i ≤ (strL "aaaaaa").length → matchesAt (strL "z") (strL "aaaaaa") i = false)
    ∧ extractSnippet (strL "z") 3 (strL "aaaaaa") =
        { content := strL "aaa" ++ ellipsis, truncated := true } :=
  ⟨by decide, by decide,
    C7_no_match_fallback (strL "z") (strL "aaaaaa") 3 (by decide) (by decide)⟩

/-! ## Claim C10 (empty search term is accepted and degenerates) -/

/-- C10: an empty `search_term` passes request validation (the pydantic
model constrains only the type, not non-emptiness), its ILIKE pattern
`%%` matches every content, and for bodies longer than `context_radius`
the empty pattern is found at position 0, so the snippet is the first
`context_radius / 2` characters with a trailing ellipsis marker only and
`truncated = true`. -/
theorem C10_empty_search_term :
    (∀ q : ChatHistoryQuery, q.search_term = [] → pydanticAccepts q = true)
    ∧ (∀ body : List Char, likeMatch (containsPattern []) body = true)
    ∧ (∀ (radius : Nat) (body : List Char), radius < body.length →
        extractSnippet [] radius body =
          { content := body.take (radius / 2) ++ ellipsis, truncated := true }) := by
  refine ⟨fun q _ => rfl, ?_, ?_⟩
  · have hpercent : ∀ s : List Char, likeMatch [Char.ofNat 37] s = true := by
      intro s
      induction s with
      | nil => simp [likeMatch]
      | cons d t ih => simp [likeMatch, ih]
    intro body
    have hpat : containsPattern [] = [Char.ofNat 37, Char.ofNat 37] := by decide
    rw [hpat]
    cases body with
    | nil => simp [likeMatch]
    | cons d t => simp [likeMatch, hpercent]
  · intro radius body hlen
    have h := @extractSnippet_found [] body radius 0 hlen (findCI_nil body)
    rw [h]
    have e1 : (0 : Nat) - radius / 2 = 0 := by omega
    have e2 : min body.length (0 + List.length ([] : List Char) + radius / 2) = radius / 2 := by
      simp only [List.length_nil, Nat.add_zero, Nat.zero_add]
      omega
    have e3 : radius / 2 < body.length := by omega
    simp [e1, e2, e3]
    omega

/-- C10 witness: the concrete empty-term request is accepted, `%%`
matches a concrete body, and on the eight-character body `abcdefgh` with
radius 4 the snippet is `ab` plus a trailing ellipsis. -/
theorem C10_witness :
    pydanticAccepts ⟨[], none, none, some 10, 2500⟩ = true
    ∧ likeMatch (containsPattern []) (strL "anything") = true
    ∧ 4 < (strL "abcdefgh").length
    ∧ extractSnippet [] 4 (strL "abcdefgh") =
        { content := strL "ab" ++ ellipsis, truncated := true } :=
  ⟨C10_empty_search_term.1 ⟨[], none, none, some 10, 2500⟩ rfl,
    C10_empty_search_term.2.1 (strL "anything"), by decide,
    C10_empty_search_term.2.2 4 (strL "abcdefgh") (by decide)⟩

/-! ## Claim C3 (standing tool-role exclusion) -/

/-- Rows surviving the executed query satisfy the generated WHERE clause:
the limit step only takes a prefix and the sort step only permutes. -/
lemma rowMatches_of_mem_executeQuery {q : ChatHistoryQuery} {db : Database}
    {mc : Message × Conversation} (h : mc ∈ executeQuery q db) :
    rowMatches q mc.1 mc.2 = true := by
  unfold executeQuery applyLimit at h
  have h2 : mc ∈ sortRows ((joinedRows db).filter fun mc => rowMatches q mc.1 mc.2) := by
    cases hq : q.limit with
    | none => rw [hq] at h; exact h
    | some n => rw [hq] at h; exact List.mem_of_mem_take h
  rw [sortRows, List.mem_mergeSort] at h2
  exact (List.mem_filter.mp h2).2

/-- C3: no entry returned by the pipeline has the author role `tool` —
the exclusion condition is always conjoined — and when the caller
explicitly requests `author_role = "tool"` the two conjoined conditions
contradict each other, so the result list is empty for every database. -/
theorem C3_tool_exclusion (q : ChatHistoryQuery) (db : Database) :
    (∀ entry ∈ query_chat_history q db, entry.author ≠ strL "tool")
    ∧ (q.author_role = some (strL "tool") → query_chat_history q db = []) := by
  constructor
  · intro entry hmem
    rw [query_chat_history, List.mem_map] at hmem
    obtain ⟨mc, hmc, hentry⟩ := hmem
    have hrow := rowMatches_of_mem_executeQuery hmc
    rw [rowMatches] at hrow
    simp only [Bool.and_eq_true, Bool.not_eq_true'] at hrow
    have hne : mc.1.author_role ≠ strL "tool" := by
      intro hcontra
      have hb := hrow.1.1.2
      rw [hcontra] at hb
      simp at hb
    rw [← hentry]
    simpa [makeEntry] using hne
  · intro hq
    have htruthy : truthy q.author_role = true := by rw [hq]; decide
    have hfilter : ((joinedRows db).filter fun mc => rowMatches q mc.1 mc.2) = [] := by
      rw [List.filter_eq_nil_iff]
      intro mc _
      rw [rowMatches]
      intro hcontra
      simp only [Bool.and_eq_true, Bool.not_eq_true'] at hcontra
      have h1 := hcontra.1.1.2
      have h2 := hcontra.1.2
      rw [htruthy, hq] at h2
      simp only [if_true, Option.getD_some] at h2
      rw [h1] at h2
      simp at h2
    rw [query_chat_history, executeQuery, hfilter]
    cases q.limit <;> simp [applyLimit, sortRows]

/-- C3 witness: a database whose only message row has author role `tool`
yields the empty result list when `author_role = "tool"` is requested,
and a concrete tool-authored entry is not among the results of the
unfiltered request. -/
theorem C3_witness :
    query_chat_history ⟨strL "a", some (strL "tool"), none, some 10, 2500⟩
        ⟨[⟨5, strL "tool", strL "has a here", 1⟩], [⟨1, some (strL "T")⟩]⟩ = []
    ∧ ¬((⟨5, strL "tool", some (strL "T"), strL "has a here", false⟩ : ChatEntry) ∈
        query_chat_history ⟨strL "a", none, none, some 10, 2500⟩
          ⟨[⟨5, strL "tool", strL "has a here", 1⟩], [⟨1, some (strL "T")⟩]⟩) :=
  ⟨(C3_tool_exclusion ⟨strL "a", some (strL "tool"), none, some 10, 2500⟩
      ⟨[⟨5, strL "tool", strL "has a here", 1⟩], [⟨1, some (strL "T")⟩]⟩).2 rfl,
    fun hmem => (C3_tool_exclusion ⟨strL "a", none, none, some 10, 2500⟩
      ⟨[⟨5, strL "tool", strL "has a here", 1⟩], [⟨1, some (strL "T")⟩]⟩).1
      ⟨5, strL "tool", some (strL "T"), strL "has a here", false⟩ hmem rfl⟩

/-! ## Claim C5 (snippet contains the match; bounded length) -/

/-- A window slice decomposes around an inner span it contains. -/
lemma take_window_split {α : Type} (body : List α) {ws s L we : Nat}
    (h1 : ws ≤ s) (h2 : s + L ≤ we) (_h3 : we ≤ body.length) :
    (body.drop ws).take (we - ws) =
      (body.drop ws).take (s - ws) ++ (body.drop s).take L
        ++ (body.drop (s + L)).take (we - (s + L)) := by
  have hsplit : we - ws = (s - ws) + (L + (we - (s + L))) := by omega
  rw [hsplit, List.take_add, List.take_add, List.drop_drop, List.drop_drop]
  have hws : ws + (s - ws) = s := by omega
  rw [hws, List.append_assoc]

/-- C5 counterexample: with radius 5 and a twelve-character body equal
(case-insensitively) to the search term itself, the match is found, the
body is longer than the radius, `truncated = true`, yet the returned
content is the whole twelve-character body — longer than
`radius + 2 × ellipsis length = 11` — because the window must contain the
entire match span.  The claimed bound fails for terms longer than the
radius. -/
theorem C5_counterexample :
    5 < (strL "aaaaaaaaaaaa").length
    ∧ findCI (strL "aaaaaaaaaaaa") (strL "aaaaaaaaaaaa") = some 0
    ∧ (extractSnippet (strL "aaaaaaaaaaaa") 5 (strL "aaaaaaaaaaaa")).truncated = true
    ∧ ¬((extractSnippet (strL "aaaaaaaaaaaa") 5 (strL "aaaaaaaaaaaa")).content.length
          ≤ 5 + 2 * ellipsis.length) :=
  ⟨by decide, by decide, by decide, by decide⟩

/-- C5 amended: for a body longer than `context_radius` with a locatable
case-insensitive match at `s`, the snippet has `truncated = true`,
contains the full matched span `body[s : s + term.length]`, and its
length is at most `context_radius + term.length + 2 × ellipsis length`
(the claimed bound `context_radius + 2 × ellipsis length` must be
enlarged by the search-term length, as the counterexample forces). -/
theorem C5_amended (term body : List Char) (radius s : Nat)
    (hlen : radius < body.length)
    (hfind : findCI term body = some s) :
    (extractSnippet term radius body).truncated = true
    ∧ (extractSnippet term radius body).content.length
        ≤ radius + term.length + 2 * ellipsis.length
    ∧ List.IsInfix ((body.drop s).take term.length)
        (extractSnippet term radius body).content := by
  have hmem : s ∈ List.range (body.length + 1) := List.mem_of_find?_eq_some hfind
  have hs_le : s ≤ body.length := by
    simpa [List.mem_range, Nat.lt_succ_iff] using hmem
  have hmatch : matchesAt term body s = true := List.find?_some hfind
  have hspan : s + term.length ≤ body.length := matchesAt_span hmatch hs_le
  rw [extractSnippet_found hlen hfind]
  have hws_le : s - radius / 2 ≤ s := by omega
  have hwe_ge : s + term.length ≤ min body.length (s + term.length + radius / 2) := by omega
  have hwe_le : min body.length (s + term.length + radius / 2) ≤ body.length := by omega
  refine ⟨rfl, ?_, ?_⟩
  · have hwindow : min body.length (s + term.length + radius / 2) - (s - radius / 2)
        ≤ radius + term.length := by omega
    by_cases hc1 : 0 < s - radius / 2 <;>
      by_cases hc2 : min body.length (s + term.length + radius / 2) < body.length <;>
        simp only [hc1, hc2, if_true, if_false, ite_true, ite_false,
          List.length_append, List.length_take, List.length_drop, List.length_nil,
          ellipsis, strL] <;>
      simp <;> omega
  · rw [take_window_split body hws_le hwe_ge hwe_le]
    refine ⟨(if 0 < s - radius / 2 then ellipsis else [])
        ++ (body.drop (s - radius / 2)).take (s - (s - radius / 2)),
      (body.drop (s + term.length)).take
          (min body.length (s + term.length + radius / 2) - (s + term.length))
        ++ (if min body.length (s + term.length + radius / 2) < body.length then ellipsis
            else []), ?_⟩
    simp [List.append_assoc]

/-- C5 witness: the amended theorem at term `def`, body `abcdefghij`,
radius 4: the snippet is truncated, at most `4 + 3 + 6` characters long,
and contains the matched span `def`. -/
theorem C5_witness :
    4 < (strL "abcdefghij").length
    ∧ findCI (strL "def") (strL "abcdefghij") = some 3
    ∧ (extractSnippet (strL "def") 4 (strL "abcdefghij")).truncated = true
    ∧ (extractSnippet (strL "def") 4 (strL "abcdefghij")).content.length
        ≤ 4 + (strL "def").length + 2 * ellipsis.length
    ∧ List.IsInfix (((strL "abcdefghij").drop 3).take (strL "def").length)
        (extractSnippet (strL "def") 4 (strL "abcdefghij")).content := by
  have h := C5_amended (strL "def") (strL "abcdefghij") 4 3 (by decide) (by decide)
  exact ⟨by decide, by decide, h.1, h.2.1, h.2.2⟩
